import Mathlib

/-!
Verification of the dmi-scheduler job queue, worker manager and worker
scaffold against their natural-language specification.

The Python sources are embedded shallowly:

* a row of the `jobs` table (`src/scheduler/database.py`, schema in §6 of the
  spec) becomes the structure `JobRow`; the table itself is a `List JobRow`;
* the SQL `SELECT` queries of `JobQueue.get_job` / `JobQueue.get_all_jobs`
  (`src/scheduler/queue.py`) become filters over that list followed by a
  stable sort on `timestamp` (modelling `ORDER BY timestamp ASC`);
* `JobQueue.add_job` together with `Database.insert(safe=True,
  constraints=("pythonfile", "remote_id"))` becomes a pure function on the
  table (PostgreSQL `ON CONFLICT (pythonfile, remote_id) DO NOTHING`);
* `BasicWorker.run` (`src/dmi_scheduler/worker.py`) becomes a total function
  from the outcome of `work()` and the `interrupted` flag to the list of
  job-state actions the scaffold performs, in order;
* the shutdown phase of `WorkerManager.run` (`src/dmi_scheduler/manager.py`)
  becomes a function from the worker pool to the list of manager actions, and
  `WorkerManager.delegate` becomes a fold over the fetched jobs that updates
  per-type worker counts.

Machine integers are modelled as `Int` (timestamps may in principle be
negative; Python ints are unbounded so no wrap-around is modelled).
-/

/-- A row of the `jobs` table, columns as in the schema (§6). -/
structure JobRow where
  id : Nat
  pythonfile : String
  remote_id : String
  details : String
  timestamp : Int
  timestamp_after : Int
  timestamp_claimed : Int
  timestamp_lastclaimed : Int
  interval : Int
  attempts : Int
  status : String
deriving Repr, DecidableEq

/-- The claimability condition appearing verbatim in the SQL of
`JobQueue.get_job` and `JobQueue.get_all_jobs` (queue.py):
`timestamp_claimed = 0 AND timestamp_after < %s AND (interval = 0 OR
timestamp_lastclaimed + interval < %s)`, with `%s` bound to `now`. -/
def claimableSql (now : Int) (j : JobRow) : Bool :=
  (j.timestamp_claimed == 0) && (decide (j.timestamp_after < now)) &&
    ((j.interval == 0) || decide (j.timestamp_lastclaimed + j.interval < now))

/-- The spec's eligibility predicate (§3 invariant 2), stated propositionally:
`timestamp_claimed == 0` and `timestamp_after < now` and
(`interval == 0` or `timestamp_lastclaimed + interval < now`). -/
def Eligible (now : Int) (j : JobRow) : Prop :=
  j.timestamp_claimed = 0 ∧ j.timestamp_after < now ∧
    (j.interval = 0 ∨ j.timestamp_lastclaimed + j.interval < now)

instance (now : Int) (j : JobRow) : Decidable (Eligible now j) := by
  unfold Eligible; infer_instance

/-- `ORDER BY timestamp ASC`: a stable sort of the result set on the
`timestamp` column. -/
def orderByTimestamp (rows : List JobRow) : List JobRow :=
  rows.mergeSort (fun a b => decide (a.timestamp ≤ b.timestamp))

/-- `JobQueue.get_job(pythonfile, timestamp)` (queue.py): `SELECT * FROM jobs
WHERE pythonfile = %s AND <claimable> ORDER BY timestamp ASC LIMIT 1`. The
`timestamp` argument (defaulting to the current time) is the explicit `now`
parameter here. A pure `SELECT`: the table is not modified and nothing is
claimed. -/
def JobQueue.get_job (pythonfile : String) (now : Int) (tbl : List JobRow) :
    Option JobRow :=
  (orderByTimestamp (tbl.filter
    (fun j => (j.pythonfile == pythonfile) && claimableSql now j))).head?

/-- `JobQueue.get_all_jobs(pythonfile, remote_id, restrict_claimable)`
(queue.py). The `WHERE` clause is `remote_id = %s` when a remote id is given,
else `pythonfile = %s` when the type is not the wildcard `"*"`, else
`pythonfile != ''`; when `restrict_claimable` is true the claimability
condition is conjoined. Results are ordered by `timestamp` ascending. -/
def JobQueue.get_all_jobs (pythonfile : String) (remote_id : Option String)
    (restrict_claimable : Bool) (now : Int) (tbl : List JobRow) :
    List JobRow :=
  let base : JobRow → Bool :=
    match remote_id with
    | some rid => fun j => j.remote_id == rid
    | none =>
        if pythonfile = "*" then fun j => j.pythonfile != ""
        else fun j => j.pythonfile == pythonfile
  let cond : JobRow → Bool :=
    if restrict_claimable then fun j => base j && claimableSql now j else base
  orderByTimestamp (tbl.filter cond)

/-- `JobQueue.get_job_count(pythonfile)` (queue.py): `COUNT(*)`, over the whole
table for the wildcard or restricted to one type. -/
def JobQueue.get_job_count (pythonfile : String) (tbl : List JobRow) : Nat :=
  if pythonfile = "*" then tbl.length
  else (tbl.filter (fun j => j.pythonfile == pythonfile)).length

/-- The dict assembled by `JobQueue.add_job` (queue.py) and handed both to
`Database.insert` and to `Job.get_by_data`. It has exactly the keys of the
Python dict: no `id` (assigned by the database) and no `status`. -/
structure JobDict where
  pythonfile : String
  details : String
  timestamp : Int
  timestamp_claimed : Int
  timestamp_lastclaimed : Int
  remote_id : String
  timestamp_after : Int
  interval : Int
  attempts : Int
deriving Repr, DecidableEq

/-- Does the table already hold a row with this `(pythonfile, remote_id)`
pair? This is the conflict condition of the unique constraint. -/
def hasPair (pythonfile remote_id : String) (tbl : List JobRow) : Bool :=
  tbl.any (fun r => (r.pythonfile == pythonfile) && (r.remote_id == remote_id))

/-- Number of rows of the table carrying a given `(pythonfile, remote_id)`
pair. -/
def pairCount (pythonfile remote_id : String) (tbl : List JobRow) : Nat :=
  (tbl.filter
    (fun r => (r.pythonfile == pythonfile) && (r.remote_id == remote_id))).length

/-- `Database.insert("jobs", data, safe=True, constraints=("pythonfile",
"remote_id"))` (database.py): `INSERT INTO jobs (...) VALUES (...) ON CONFLICT
(pythonfile, remote_id) DO NOTHING`. A conflict occurs exactly when a row with
the same pair already exists (the pair is a unique constraint of the `jobs`
schema, §6); then the statement is a no-op and the existing rows are left
untouched. Otherwise the database appends the row, assigning a fresh `id` and
the `status` column default `''`. -/
def Database.insert_safe_jobs (freshId : Nat) (d : JobDict)
    (tbl : List JobRow) : List JobRow :=
  if hasPair d.pythonfile d.remote_id tbl then tbl
  else tbl ++ [{ id := freshId, pythonfile := d.pythonfile,
                 remote_id := d.remote_id, details := d.details,
                 timestamp := d.timestamp,
                 timestamp_after := d.timestamp_after,
                 timestamp_claimed := d.timestamp_claimed,
                 timestamp_lastclaimed := d.timestamp_lastclaimed,
                 interval := d.interval, attempts := d.attempts,
                 status := "" }]

/-- Modelled from the spec: `scheduler/job.py` is not among the sources. Per
§4.2 and the glossary a Job is a handle over one row's data, and
`Job.get_by_data(data, database)` constructs that handle from the data it is
given — in `get_job` / `get_all_jobs` it is applied to rows just fetched,
which the resulting handles must represent exactly, so it wraps the given
data and does not query the database again. -/
def Job.get_by_data (data : JobDict) : JobDict := data

/-- `if not remote_id: remote_id = str(uuid4())` (queue.py, add_job): an
absent or empty remote id is replaced by a fresh UUID. -/
def effectiveRemoteId : Option String → String → String
  | none, uuid => uuid
  | some r, uuid => if r = "" then uuid else r

/-- `JobQueue.add_job(pythonfile, details, remote_id, claim_after, interval)`
(queue.py): build the data dict (`timestamp = now`, `timestamp_claimed = 0`,
`timestamp_lastclaimed = 0`, `timestamp_after = claim_after`, `attempts = 0`),
insert it with the safe insert, and return `Job.get_by_data(data)` — the
handle is built from this local dict, the stored row is never re-fetched.
`uuid` is the fresh UUID drawn when no remote id is supplied and `freshId`
the row id the database would assign. The function is total: no exception
reaches the caller. -/
def JobQueue.add_job (pythonfile details : String) (remote_id : Option String)
    (claim_after interval now : Int) (uuid : String) (freshId : Nat)
    (tbl : List JobRow) : List JobRow × JobDict :=
  let rid := effectiveRemoteId remote_id uuid
  let data : JobDict :=
    { pythonfile := pythonfile, details := details, timestamp := now,
      timestamp_claimed := 0, timestamp_lastclaimed := 0, remote_id := rid,
      timestamp_after := claim_after, interval := interval, attempts := 0 }
  (Database.insert_safe_jobs freshId data tbl, Job.get_by_data data)

/-- One call of a repeated `add_job` invocation: the per-call arguments other
than the fixed `(pythonfile, remote_id)` pair. -/
structure AddCall where
  details : String
  claim_after : Int
  interval : Int
  now : Int
  uuid : String
  freshId : Nat
deriving Repr, DecidableEq

/-- Iterate `add_job` with a fixed `(pythonfile, remote_id)` pair over a list
of calls, threading the jobs table. -/
def addJobIter (pythonfile rid : String) (calls : List AddCall)
    (tbl : List JobRow) : List JobRow :=
  calls.foldl
    (fun t c =>
      (JobQueue.add_job pythonfile c.details (some rid) c.claim_after
        c.interval c.now c.uuid c.freshId t).1)
    tbl

/-- `JobQueue.get_place_in_queue(job)` (queue.py): 0 when the job is claimed;
otherwise the length of the list of jobs returned by
`get_all_jobs(pythonfile=job.pythonfile)` — note `restrict_claimable`
defaults to true there — whose `timestamp` is smaller than the job's or whose
`timestamp_claimed` is positive. -/
def JobQueue.get_place_in_queue (job : JobRow) (now : Int)
    (tbl : List JobRow) : Nat :=
  if job.timestamp_claimed > 0 then 0
  else
    ((JobQueue.get_all_jobs job.pythonfile none true now tbl).filter
      (fun q => decide (q.timestamp < job.timestamp) ||
                decide (q.timestamp_claimed > 0))).length

/-- `Scheduler.has_jobs()` (scheduler.py):
`len(self._manager.queue.get_all_jobs()) > 0`, i.e. `get_all_jobs` with all
defaults — wildcard type, no remote id, `restrict_claimable=True`. -/
def Scheduler.has_jobs (now : Int) (tbl : List JobRow) : Bool :=
  decide (0 < (JobQueue.get_all_jobs "*" none true now tbl).length)

/-- `BasicWorker.INTERRUPT_NONE` (worker.py). In Python this is `False`,
which compares equal to `0` under `==`; the flag is modelled as an `Int`. -/
def INTERRUPT_NONE : Int := 0

/-- `BasicWorker.INTERRUPT_RETRY = 1` (worker.py). -/
def INTERRUPT_RETRY : Int := 1

/-- `BasicWorker.INTERRUPT_CANCEL = 2` (worker.py). -/
def INTERRUPT_CANCEL : Int := 2

/-- `BasicWorker.request_abort(self, level=1)` (worker.py) merely assigns
`self.interrupted = level`; this is the default value of its `level`
parameter, used when the caller passes no argument. -/
def requestAbortDefaultLevel : Int := 1

/-- An effect of `BasicWorker.run` on its claimed job, the logger, or the
`abort()` extension point, in the order the scaffold performs them. -/
inductive JobAction where
  | logInfo (msg : String)
  | logError (msg : String)
  | release (delay : Int)
  | finish
  | addStatus (text : String)
  | abortHook
deriving Repr, DecidableEq

/-- How the user-supplied `work()` terminates: normal return, raising
`WorkerInterruptedException`, or raising any other exception (carrying its
class name, message and traceback frames rendered as `file:line`). -/
inductive WorkOutcome where
  | normal
  | workerInterrupted
  | crashed (excName excMsg : String) (frames : List String)
deriving Repr, DecidableEq

/-- `BasicWorker.after_work` (worker.py): `self.job.finish()`. -/
def BasicWorker.after_work : List JobAction := [JobAction.finish]

/-- `BasicWorker.run` (worker.py) as the ordered list of effects it performs,
given how `work()` terminated and the value of the `interrupted` flag. The
`try` block catches `WorkerInterruptedException` (log, then release with
delay 10 on `INTERRUPT_RETRY`, finish on `INTERRUPT_CANCEL`, nothing
otherwise, then the `abort()` hook) and catches every other exception (log
the error with the `->`-joined frame trail, append "Crash during execution"
to the job status); no exception propagates out of `run`, which this being a
total function reflects. `self.after_work()` stands after the whole
`try/except` statement at the body's top level, so it runs on every path. -/
def BasicWorker.run (workerType : String) (outcome : WorkOutcome)
    (interrupted : Int) : List JobAction :=
  (match outcome with
   | WorkOutcome.normal => []
   | WorkOutcome.workerInterrupted =>
       [JobAction.logInfo ("Worker " ++ workerType ++ " interrupted")] ++
       (if interrupted == INTERRUPT_RETRY then [JobAction.release 10]
        else if interrupted == INTERRUPT_CANCEL then [JobAction.finish]
        else []) ++
       [JobAction.abortHook]
   | WorkOutcome.crashed excName excMsg frames =>
       [JobAction.logError ("Worker " ++ workerType ++ " raised exception " ++
          excName ++ " and will abort: " ++ excMsg ++ " at " ++
          String.intercalate "->" frames),
        JobAction.addStatus "Crash during execution"]) ++
  BasicWorker.after_work

/-- A live worker in the manager's `_worker_pool`: its identity, the id of
the job it owns, and whether it has a `request_abort` attribute
(`hasattr(worker, "request_abort")` in manager.py). -/
structure PoolWorker where
  wid : Nat
  jobId : Nat
  hasRequestAbort : Bool
deriving Repr, DecidableEq

/-- An action of the `WorkerManager.run` loop (manager.py): one `delegate()`
tick, or one of the shutdown-phase calls on a pooled worker. -/
inductive ManagerAction where
  | delegateTick
  | requestAbortW (wid : Nat) (level : Int)
  | abortW (wid : Nat)
  | joinW (wid : Nat)
deriving Repr, DecidableEq

/-- The shutdown phase of `WorkerManager.run` (manager.py), reached when
`looping` has become false: first, for every worker in the pool,
`worker.request_abort()` — with no argument, hence the default level — when
the worker has that attribute, else `worker.abort()`; then, in a second pass,
`worker.join()` on every worker. -/
def WorkerManager.shutdown_actions (pool : List PoolWorker) :
    List ManagerAction :=
  pool.map (fun w =>
    if w.hasRequestAbort then
      ManagerAction.requestAbortW w.wid requestAbortDefaultLevel
    else ManagerAction.abortW w.wid) ++
  pool.map (fun w => ManagerAction.joinW w.wid)

/-- `WorkerManager.run` (manager.py): `delegate()` is invoked while `looping`
holds — `abort()` only sets `looping = False`, so the loop runs some number
of further ticks and then exits — after which the shutdown phase runs. After
the loop exits no `delegate()` call (the only place jobs are claimed and
workers spawned) occurs again. -/
def WorkerManager.run_trace (ticksWhileLooping : Nat)
    (pool : List PoolWorker) : List ManagerAction :=
  List.replicate ticksWhileLooping ManagerAction.delegateTick ++
    WorkerManager.shutdown_actions pool

/-- A job as seen by one `WorkerManager.delegate` pass (manager.py), with the
facts that branch the dispatch decision: its worker type (derived from
`pythonfile`), whether the worker script file exists, whether a worker class
resolves from it, and whether `job.claim()` succeeds rather than raising
`JobClaimedException`. -/
structure FetchedJob where
  worker_type : String
  script_exists : Bool
  has_worker_cls : Bool
  claim_succeeds : Bool
deriving Repr, DecidableEq

/-- The dispatch decision of `WorkerManager.delegate` for one fetched job
(manager.py): a missing script finishes the job and moves on; a missing
worker class moves on; a type already at `max_workers` is skipped; otherwise
the job is claimed and on success a worker is appended to that type's pool
(a lost claim — `JobClaimedException` — is caught and skipped). The pool is
modelled by its per-type occupancy counts. -/
def WorkerManager.delegate_step (max_workers : String → Nat)
    (pool : String → Nat) (job : FetchedJob) : String → Nat :=
  if !job.script_exists then pool
  else if !job.has_worker_cls then pool
  else if max_workers job.worker_type ≤ pool job.worker_type then pool
  else if job.claim_succeeds then
    Function.update pool job.worker_type (pool job.worker_type + 1)
  else pool

/-- The reap pass at the head of `WorkerManager.delegate` (manager.py):
workers whose threads have terminated are joined and removed from the pool,
so each type's occupancy can only shrink; `dead` counts the removals. -/
def WorkerManager.reap (pool dead : String → Nat) : String → Nat :=
  fun t => pool t - dead t

/-- One full `WorkerManager.delegate` tick (manager.py): fetch the eligible
jobs, reap terminated workers, then run the dispatch decision on each fetched
job in order. -/
def WorkerManager.delegate (max_workers : String → Nat)
    (dead pool : String → Nat) (jobs : List FetchedJob) : String → Nat :=
  jobs.foldl (WorkerManager.delegate_step max_workers)
    (WorkerManager.reap pool dead)

/-- A one-shot row of type `"w"` whose `timestamp_lastclaimed` is 5: with
`interval = 0` the interval clause of the claimability condition is vacuous. -/
def jobIntervalZero : JobRow :=
  { id := 1, pythonfile := "w", remote_id := "r", details := "",
    timestamp := 0, timestamp_after := 0, timestamp_claimed := 0,
    timestamp_lastclaimed := 5, interval := 0, attempts := 0, status := "" }

/-- An eligible one-shot row of type `"w"` with enqueue timestamp 1. -/
def rowEligA : JobRow :=
  { id := 2, pythonfile := "w", remote_id := "a", details := "",
    timestamp := 1, timestamp_after := 0, timestamp_claimed := 0,
    timestamp_lastclaimed := 0, interval := 0, attempts := 0, status := "" }

/-- An eligible one-shot row of type `"w"` with enqueue timestamp 2. -/
def rowEligB : JobRow :=
  { id := 3, pythonfile := "w", remote_id := "b", details := "",
    timestamp := 2, timestamp_after := 0, timestamp_claimed := 0,
    timestamp_lastclaimed := 0, interval := 0, attempts := 0, status := "" }

/-- A deferred row of type `"w"`: `timestamp_after = 20` lies in the future
of the observation time 10 used below. -/
def rowDeferred : JobRow :=
  { id := 4, pythonfile := "w", remote_id := "c", details := "",
    timestamp := 3, timestamp_after := 20, timestamp_claimed := 0,
    timestamp_lastclaimed := 0, interval := 0, attempts := 0, status := "" }

/-- An existing stored row for the pair `("w", "x")`: id 7, enqueued at
timestamp 100, with 3 recorded attempts. -/
def rowStored : JobRow :=
  { id := 7, pythonfile := "w", remote_id := "x", details := "null",
    timestamp := 100, timestamp_after := 0, timestamp_claimed := 0,
    timestamp_lastclaimed := 0, interval := 0, attempts := 3, status := "" }

/-- An unclaimed, eligible row of type `"w"` at the front of its queue
(timestamp 20). -/
def rowFront : JobRow :=
  { id := 11, pythonfile := "w", remote_id := "f", details := "",
    timestamp := 20, timestamp_after := 0, timestamp_claimed := 0,
    timestamp_lastclaimed := 0, interval := 0, attempts := 0, status := "" }

/-- A currently claimed row of type `"w"` with an earlier timestamp (10)
than `rowFront`. -/
def rowClaimed : JobRow :=
  { id := 12, pythonfile := "w", remote_id := "g", details := "",
    timestamp := 10, timestamp_after := 0, timestamp_claimed := 50,
    timestamp_lastclaimed := 50, interval := 0, attempts := 1, status := "" }

/-- An eligible row whose `pythonfile` is the empty string. -/
def rowEmptyType : JobRow :=
  { id := 21, pythonfile := "", remote_id := "r", details := "",
    timestamp := 0, timestamp_after := 0, timestamp_claimed := 0,
    timestamp_lastclaimed := 0, interval := 0, attempts := 0, status := "" }

/-- A pooled worker that supports leveled interrupts
(`hasattr(worker, "request_abort")` holds). -/
def pooledWorker : PoolWorker := { wid := 0, jobId := 0, hasRequestAbort := true }

/-- Concurrency cap used in the cap-invariant witness: one worker per type. -/
def capOne : String → Nat := fun _ => 1

/-- Empty worker pool (no running workers of any type). -/
def poolEmpty : String → Nat := fun _ => 0

/-- No terminated workers to reap. -/
def deadNone : String → Nat := fun _ => 0

/-- Two claimable fetched jobs of the same worker type `"w"`, both with an
existing script, a resolvable worker class and a winning claim. -/
def twoJobsSameType : List FetchedJob :=
  [{ worker_type := "w", script_exists := true, has_worker_cls := true,
     claim_succeeds := true },
   { worker_type := "w", script_exists := true, has_worker_cls := true,
     claim_succeeds := true }]

/-- Two `add_job` calls for the same pair, made at times 1000 and 1001. -/
def twoAddCalls : List AddCall :=
  [{ details := "null", claim_after := 0, interval := 0, now := 1000,
     uuid := "u1", freshId := 1 },
   { details := "null", claim_after := 5, interval := 0, now := 1001,
     uuid := "u2", freshId := 2 }]

theorem claimableSql_iff (now : Int) (j : JobRow) :
    claimableSql now j = true ↔ Eligible now j := by
  simp [claimableSql, Eligible, and_assoc]

theorem orderByTimestamp_perm (rows : List JobRow) :
    (orderByTimestamp rows).Perm rows :=
  List.mergeSort_perm rows _

theorem mem_orderByTimestamp {j : JobRow} {rows : List JobRow} :
    j ∈ orderByTimestamp rows ↔ j ∈ rows :=
  (orderByTimestamp_perm rows).mem_iff

theorem orderByTimestamp_sorted (rows : List JobRow) :
    List.Pairwise (fun a b : JobRow => a.timestamp ≤ b.timestamp)
      (orderByTimestamp rows) := by
  have h := @List.sorted_mergeSort JobRow
    (fun a b => decide (a.timestamp ≤ b.timestamp))
    (fun a b c hab hbc => by
      simp only [decide_eq_true_eq] at hab hbc ⊢
      exact le_trans hab hbc)
    (fun a b => by
      simp only [Bool.or_eq_true, decide_eq_true_eq]
      exact le_total _ _)
    rows
  exact h.imp (fun hab => by simpa using hab)

theorem get_all_jobs_typed_eq (pythonfile : String) (now : Int)
    (tbl : List JobRow) (hpf : pythonfile ≠ "*") :
    JobQueue.get_all_jobs pythonfile none true now tbl =
      orderByTimestamp (tbl.filter
        (fun j => (j.pythonfile == pythonfile) && claimableSql now j)) := by
  simp [JobQueue.get_all_jobs, hpf]

theorem mem_get_all_jobs_typed {pythonfile : String} {now : Int}
    {tbl : List JobRow} {j : JobRow} (hpf : pythonfile ≠ "*") :
    j ∈ JobQueue.get_all_jobs pythonfile none true now tbl ↔
      j ∈ tbl ∧ j.pythonfile = pythonfile ∧ Eligible now j := by
  rw [get_all_jobs_typed_eq pythonfile now tbl hpf, mem_orderByTimestamp,
    List.mem_filter]
  simp [claimableSql_iff, and_assoc]

theorem mem_get_all_jobs_wild {now : Int} {tbl : List JobRow} {j : JobRow} :
    j ∈ JobQueue.get_all_jobs "*" none true now tbl ↔
      j ∈ tbl ∧ j.pythonfile ≠ "" ∧ Eligible now j := by
  unfold JobQueue.get_all_jobs
  simp [mem_orderByTimestamp, List.mem_filter, claimableSql_iff, and_assoc]

theorem get_job_eq_head (pythonfile : String) (now : Int) (tbl : List JobRow)
    (hpf : pythonfile ≠ "*") :
    JobQueue.get_job pythonfile now tbl =
      (JobQueue.get_all_jobs pythonfile none true now tbl).head? := by
  rw [get_all_jobs_typed_eq pythonfile now tbl hpf]
  rfl

theorem get_job_some_mem {pythonfile : String} {now : Int} {tbl : List JobRow}
    {j : JobRow} (h : JobQueue.get_job pythonfile now tbl = some j) :
    j ∈ tbl ∧ j.pythonfile = pythonfile ∧ Eligible now j := by
  unfold JobQueue.get_job at h
  have hmem : j ∈ orderByTimestamp (tbl.filter
      (fun j => (j.pythonfile == pythonfile) && claimableSql now j)) :=
    List.mem_of_mem_head? (by simp [h])
  rw [mem_orderByTimestamp, List.mem_filter] at hmem
  simpa [claimableSql_iff, and_assoc] using hmem

/-- C1: the claim states that when `work()` raises `WorkerInterruptedException`
under `interrupted = INTERRUPT_RETRY` the scaffold calls `job.release(delay=10)`
and does not finish the job. The code does call `release(delay=10)`, but
`self.after_work()` stands after the whole `try/except` statement, so it runs
on this path too and calls `job.finish()`: the scaffold both releases and then
finishes the job in the same run. -/
theorem C1_retry_releases_then_finishes :
    BasicWorker.run "worker" WorkOutcome.workerInterrupted INTERRUPT_RETRY =
      [JobAction.logInfo "Worker worker interrupted", JobAction.release 10,
       JobAction.abortHook, JobAction.finish] ∧
    JobAction.release 10 ∈
      BasicWorker.run "worker" WorkOutcome.workerInterrupted INTERRUPT_RETRY ∧
    JobAction.finish ∈
      BasicWorker.run "worker" WorkOutcome.workerInterrupted INTERRUPT_RETRY := by
  refine ⟨rfl, by simp [BasicWorker.run, BasicWorker.after_work, INTERRUPT_RETRY],
    by simp [BasicWorker.run, BasicWorker.after_work, INTERRUPT_RETRY]⟩

/-- C5: when `work()` raises any exception other than
`WorkerInterruptedException`, the scaffold catches it — `BasicWorker.run` is a
total function of the outcome, nothing propagates — logs it with the compact
`->`-joined frame trail, appends "Crash during execution" to the job's status,
and then finishes the job via `after_work()`; no release happens on this path,
whatever the `interrupted` flag holds. -/
theorem C5_crash_caught_logged_finished (workerType excName excMsg : String)
    (frames : List String) (interrupted : Int) :
    BasicWorker.run workerType (WorkOutcome.crashed excName excMsg frames)
        interrupted =
      [JobAction.logError ("Worker " ++ workerType ++ " raised exception " ++
          excName ++ " and will abort: " ++ excMsg ++ " at " ++
          String.intercalate "->" frames),
       JobAction.addStatus "Crash during execution", JobAction.finish] ∧
    (∀ d, JobAction.release d ∉
      BasicWorker.run workerType (WorkOutcome.crashed excName excMsg frames)
        interrupted) := by
  constructor
  · rfl
  · intro d
    simp [BasicWorker.run, BasicWorker.after_work]

/-- C4 counterexample: the claim states the shutdown phase calls
`request_abort(INTERRUPT_CANCEL)` on every live worker. In the code the call
is `worker.request_abort()` with no argument, whose default level is 1 =
`INTERRUPT_RETRY`: for a pool holding one leveled worker the trace contains
`request_abort` at level `INTERRUPT_RETRY` and no call at level
`INTERRUPT_CANCEL`. -/
theorem C4_counterexample_default_level :
    ManagerAction.requestAbortW 0 INTERRUPT_CANCEL ∉
      WorkerManager.run_trace 0 [pooledWorker] ∧
    ManagerAction.requestAbortW 0 INTERRUPT_RETRY ∈
      WorkerManager.run_trace 0 [pooledWorker] ∧
    WorkerManager.shutdown_actions [pooledWorker] =
      [ManagerAction.requestAbortW 0 1, ManagerAction.joinW 0] := by
  refine ⟨?_, ?_, rfl⟩ <;>
    simp [WorkerManager.run_trace, WorkerManager.shutdown_actions,
      pooledWorker, requestAbortDefaultLevel, INTERRUPT_RETRY, INTERRUPT_CANCEL]

/-- C4 as amended: after `abort()` sets `looping` to false the dispatcher's
`run()` exits its loop, calls `request_abort()` — at the parameter's default
level, `INTERRUPT_RETRY` (1), not `INTERRUPT_CANCEL` — on every live worker in
the pool (or `abort()` if the worker does not support leveled interrupts),
then joins every worker; after the loop exits no `delegate()` tick — the only
place where jobs are dispatched to new workers — occurs, so no job enqueued
after abort is ever dispatched. -/
theorem C4_amended_shutdown_sequence (ticks : Nat) (pool : List PoolWorker) :
    WorkerManager.run_trace ticks pool =
      List.replicate ticks ManagerAction.delegateTick ++
      (pool.map (fun w =>
        if w.hasRequestAbort then
          ManagerAction.requestAbortW w.wid INTERRUPT_RETRY
        else ManagerAction.abortW w.wid) ++
       pool.map (fun w => ManagerAction.joinW w.wid)) ∧
    ManagerAction.delegateTick ∉ WorkerManager.shutdown_actions pool := by
  constructor
  · rfl
  · intro hmem
    simp only [WorkerManager.shutdown_actions, List.mem_append,
      List.mem_map] at hmem
    rcases hmem with ⟨w, _, hw⟩ | ⟨w, _, hw⟩
    · by_cases h : w.hasRequestAbort <;> simp [h] at hw
    · simp at hw

theorem delegate_step_preserves_cap (max_workers pool : String → Nat)
    (job : FetchedJob) (hp : ∀ t, pool t ≤ max_workers t) :
    ∀ t, WorkerManager.delegate_step max_workers pool job t ≤ max_workers t := by
  intro t
  unfold WorkerManager.delegate_step
  split
  · exact hp t
  split
  · exact hp t
  split
  · exact hp t
  split
  · rw [Function.update_apply]
    split
    · rename_i hskip hcap hteq
      subst hteq
      omega
    · exact hp t
  · exact hp t

theorem delegate_fold_preserves_cap (max_workers : String → Nat)
    (jobs : List FetchedJob) (init : String → Nat)
    (hinit : ∀ t, init t ≤ max_workers t) :
    ∀ t, (jobs.foldl (WorkerManager.delegate_step max_workers) init) t ≤
      max_workers t := by
  induction jobs generalizing init with
  | nil => exact hinit
  | cons job rest ih =>
      exact ih (WorkerManager.delegate_step max_workers init job)
        (delegate_step_preserves_cap max_workers init job hinit)

/-- C9: if every worker type's pool occupancy is within its class's
`max_workers` cap when a `delegate()` tick starts, it still is at its end —
the reap pass only shrinks counts, and a worker is appended to a type's pool
only after the `len(pool[worker_type]) >= max_workers` check failed, i.e.
when there was strictly free room; so no dispatch tick pushes a type past
its cap. -/
theorem C9_pool_within_cap (max_workers dead pool : String → Nat)
    (jobs : List FetchedJob) (hpool : ∀ t, pool t ≤ max_workers t) :
    ∀ t, WorkerManager.delegate max_workers dead pool jobs t ≤ max_workers t := by
  unfold WorkerManager.delegate
  exact delegate_fold_preserves_cap max_workers jobs _
    (fun t => le_trans (Nat.sub_le _ _) (hpool t))

/-- C9 witness: starting from an empty pool with cap 1 per type and two
claimable fetched jobs of type `"w"`, a delegate tick leaves at most one
worker of type `"w"` in the pool. -/
theorem C9_pool_within_cap_witness :
    WorkerManager.delegate capOne deadNone poolEmpty twoJobsSameType "w" ≤
      capOne "w" :=
  C9_pool_within_cap capOne deadNone poolEmpty twoJobsSameType
    (fun t => Nat.zero_le (capOne t)) "w"

theorem hasPair_iff_pairCount (pythonfile rid : String) (tbl : List JobRow) :
    hasPair pythonfile rid tbl = true ↔ 0 < pairCount pythonfile rid tbl := by
  simp [hasPair, pairCount, List.any_eq_true, List.length_pos,
    List.filter_eq_nil_iff]

theorem addJobIter_cons (pythonfile rid : String) (c : AddCall)
    (rest : List AddCall) (tbl : List JobRow) :
    addJobIter pythonfile rid (c :: rest) tbl =
      addJobIter pythonfile rid rest
        ((JobQueue.add_job pythonfile c.details (some rid) c.claim_after
          c.interval c.now c.uuid c.freshId tbl).1) := rfl

theorem pairCount_add_job (pythonfile d rid : String) (ca iv now : Int)
    (u : String) (fid : Nat) (tbl : List JobRow) (hrid : rid ≠ "") :
    pairCount pythonfile rid
        (JobQueue.add_job pythonfile d (some rid) ca iv now u fid tbl).1 =
      if hasPair pythonfile rid tbl then pairCount pythonfile rid tbl
      else pairCount pythonfile rid tbl + 1 := by
  unfold JobQueue.add_job Database.insert_safe_jobs Job.get_by_data
    effectiveRemoteId
  by_cases h : hasPair pythonfile rid tbl
  · simp [h, hrid]
  · simp [h, hrid, pairCount, List.filter_append]

theorem addJobIter_keeps_one (pythonfile rid : String) (hrid : rid ≠ "")
    (calls : List AddCall) :
    ∀ tbl, pairCount pythonfile rid tbl = 1 →
      pairCount pythonfile rid (addJobIter pythonfile rid calls tbl) = 1 := by
  induction calls with
  | nil => intro tbl h; exact h
  | cons c rest ih =>
      intro tbl h
      rw [addJobIter_cons]
      apply ih
      rw [pairCount_add_job pythonfile c.details rid c.claim_after c.interval
        c.now c.uuid c.freshId tbl hrid]
      have hp : hasPair pythonfile rid tbl = true :=
        (hasPair_iff_pairCount pythonfile rid tbl).mpr (by omega)
      simp [hp, h]

/-- C2: for a fixed `(pythonfile, remote_id)` pair with a non-empty remote id,
starting from a table holding no row with that pair, any non-empty sequence of
`add_job` calls for the pair leaves exactly one row with the pair in the
table; moreover an `add_job` against a table already holding the pair is a
no-op on the table (the existing rows — in particular the conflicting one —
remain untouched), and `add_job` is a total function, so no exception reaches
its caller. -/
theorem C2_unique_enqueue (pythonfile rid : String) (hrid : rid ≠ "")
    (tbl : List JobRow) (h0 : pairCount pythonfile rid tbl = 0)
    (calls : List AddCall) (hc : calls ≠ []) :
    pairCount pythonfile rid (addJobIter pythonfile rid calls tbl) = 1 ∧
    ∀ (d : String) (ca iv now : Int) (u : String) (fid : Nat)
      (t : List JobRow), hasPair pythonfile rid t = true →
      (JobQueue.add_job pythonfile d (some rid) ca iv now u fid t).1 = t := by
  constructor
  · cases calls with
    | nil => exact absurd rfl hc
    | cons c rest =>
        rw [addJobIter_cons]
        apply addJobIter_keeps_one pythonfile rid hrid rest
        rw [pairCount_add_job pythonfile c.details rid c.claim_after c.interval
          c.now c.uuid c.freshId tbl hrid]
        have hp : hasPair pythonfile rid tbl = false := by
          cases hEq : hasPair pythonfile rid tbl
          · rfl
          · exact absurd ((hasPair_iff_pairCount pythonfile rid tbl).mp hEq)
              (by omega)
        simp [hp, h0]
  · intro d ca iv now u fid t ht
    unfold JobQueue.add_job Database.insert_safe_jobs Job.get_by_data
      effectiveRemoteId
    simp [hrid, ht]

/-- C2 witness: two concrete `add_job` calls for the pair `("w", "x")` on an
initially empty table leave exactly one row with that pair. -/
theorem C2_unique_enqueue_witness :
    ("x" : String) ≠ "" ∧ pairCount "w" "x" ([] : List JobRow) = 0 ∧
    pairCount "w" "x" (addJobIter "w" "x" twoAddCalls []) = 1 :=
  ⟨by decide, rfl,
    (C2_unique_enqueue "w" "x" (by decide) [] rfl twoAddCalls
      (by decide)).1⟩

/-- C3 counterexample: the claim's "in particular" clause says a job with
`timestamp_lastclaimed + interval = T` is never returned while `now ≤ T`. For
a one-shot job (`interval = 0`) the interval clause of the condition is
vacuous: `jobIntervalZero` has `timestamp_lastclaimed + interval = 5`, yet at
`now = 3 ≤ 5` both `get_all_jobs` (claimable-restricted) and `get_job` return
it. -/
theorem C3_counterexample_interval_zero :
    jobIntervalZero.timestamp_lastclaimed + jobIntervalZero.interval = 5 ∧
    (3 : Int) ≤ 5 ∧
    JobQueue.get_all_jobs "w" none true 3 [jobIntervalZero] =
      [jobIntervalZero] ∧
    JobQueue.get_job "w" 3 [jobIntervalZero] = some jobIntervalZero := by
  refine ⟨rfl, by norm_num, ?_, ?_⟩
  · rw [get_all_jobs_typed_eq "w" 3 _ (by decide)]
    simp [orderByTimestamp, jobIntervalZero, claimableSql, List.mergeSort]
  · simp [JobQueue.get_job, orderByTimestamp, jobIntervalZero, claimableSql,
      List.mergeSort]

/-- C3 as amended: `get_job(type, now)` returns only jobs of that type
satisfying the eligibility condition, and `get_all_jobs(type,
restrict_claimable=True)` returns exactly the rows of that type satisfying it
(`timestamp_claimed == 0` and `timestamp_after < now` and (`interval == 0` or
`timestamp_lastclaimed + interval < now`)); in particular a job with
`timestamp_after = T` is never returned while `now ≤ T`, and a job with
`interval ≠ 0` and `timestamp_lastclaimed + interval = T` is never returned
while `now ≤ T` — the interval-gap guarantee holds only for recurring jobs,
since for `interval = 0` the clause is vacuous. -/
theorem C3_amended_eligibility (pythonfile : String) (now : Int)
    (tbl : List JobRow) (j : JobRow) (hpf : pythonfile ≠ "*") :
    (j ∈ JobQueue.get_all_jobs pythonfile none true now tbl ↔
       j ∈ tbl ∧ j.pythonfile = pythonfile ∧ Eligible now j) ∧
    (JobQueue.get_job pythonfile now tbl = some j →
       j ∈ tbl ∧ j.pythonfile = pythonfile ∧ Eligible now j) ∧
    (now ≤ j.timestamp_after →
       j ∉ JobQueue.get_all_jobs pythonfile none true now tbl ∧
       JobQueue.get_job pythonfile now tbl ≠ some j) ∧
    (j.interval ≠ 0 → now ≤ j.timestamp_lastclaimed + j.interval →
       j ∉ JobQueue.get_all_jobs pythonfile none true now tbl ∧
       JobQueue.get_job pythonfile now tbl ≠ some j) := by
  have hiff := @mem_get_all_jobs_typed pythonfile now tbl j hpf
  refine ⟨hiff, fun h => get_job_some_mem h, ?_, ?_⟩
  · intro hafter
    have hne : ¬ Eligible now j := fun hE => absurd hE.2.1 (not_lt.mpr hafter)
    exact ⟨fun hm => hne ((hiff.mp hm).2.2),
      fun hg => hne ((get_job_some_mem hg).2.2)⟩
  · intro hint hT
    have hne : ¬ Eligible now j := by
      rintro ⟨-, -, h3 | h3⟩
      · exact hint h3
      · omega
    exact ⟨fun hm => hne ((hiff.mp hm).2.2),
      fun hg => hne ((get_job_some_mem hg).2.2)⟩

/-- C3 amended witness: at `now = 10`, the eligible row is returned and the
deferred row (`timestamp_after = 20 ≥ now`) is not. -/
theorem C3_amended_eligibility_witness :
    rowEligA ∈ JobQueue.get_all_jobs "w" none true 10 [rowEligA, rowDeferred] ∧
    rowDeferred ∉
      JobQueue.get_all_jobs "w" none true 10 [rowEligA, rowDeferred] :=
  ⟨(C3_amended_eligibility "w" 10 [rowEligA, rowDeferred] rowEligA
      (by decide)).1.mpr ⟨by simp, rfl, by decide⟩,
   ((C3_amended_eligibility "w" 10 [rowEligA, rowDeferred] rowDeferred
      (by decide)).2.2.1 (by decide)).1⟩

/-- C8: for a table whose eligible jobs of one type have pairwise distinct
timestamps, `get_all_jobs(type)` (claimable-restricted) returns exactly those
jobs — a permutation of the filtered table — sorted in strictly ascending
`timestamp` order; `get_job(type, now)` is the head of that list: when it
returns a job, that job is an eligible job of the type with minimal
`timestamp`, still unclaimed (`timestamp_claimed = 0` — the operation is a
pure `SELECT` of the table and claims nothing), and it returns `none` exactly
when no eligible job of the type exists. -/
theorem C8_fifo_and_min (pythonfile : String) (now : Int) (tbl : List JobRow)
    (hpf : pythonfile ≠ "*")
    (hdist : List.Pairwise (fun a b : JobRow => a.timestamp ≠ b.timestamp)
      (tbl.filter (fun j => (j.pythonfile == pythonfile) &&
        claimableSql now j))) :
    List.Pairwise (fun a b : JobRow => a.timestamp < b.timestamp)
      (JobQueue.get_all_jobs pythonfile none true now tbl) ∧
    (JobQueue.get_all_jobs pythonfile none true now tbl).Perm
      (tbl.filter (fun j => (j.pythonfile == pythonfile) &&
        claimableSql now j)) ∧
    JobQueue.get_job pythonfile now tbl =
      (JobQueue.get_all_jobs pythonfile none true now tbl).head? ∧
    (∀ j, JobQueue.get_job pythonfile now tbl = some j →
       j ∈ tbl ∧ j.timestamp_claimed = 0 ∧
       ∀ k ∈ tbl, k.pythonfile = pythonfile → Eligible now k →
         j.timestamp ≤ k.timestamp) ∧
    (JobQueue.get_job pythonfile now tbl = none ↔
       ∀ k ∈ tbl, ¬(k.pythonfile = pythonfile ∧ Eligible now k)) := by
  have hG := get_all_jobs_typed_eq pythonfile now tbl hpf
  have hperm : (JobQueue.get_all_jobs pythonfile none true now tbl).Perm
      (tbl.filter (fun j => (j.pythonfile == pythonfile) &&
        claimableSql now j)) := by
    rw [hG]; exact orderByTimestamp_perm _
  have hsorted : List.Pairwise (fun a b : JobRow => a.timestamp ≤ b.timestamp)
      (JobQueue.get_all_jobs pythonfile none true now tbl) := by
    rw [hG]; exact orderByTimestamp_sorted _
  have hne : List.Pairwise (fun a b : JobRow => a.timestamp ≠ b.timestamp)
      (JobQueue.get_all_jobs pythonfile none true now tbl) :=
    (List.Perm.pairwise_iff (fun hab => hab.symm) hperm).mpr hdist
  have hlt : List.Pairwise (fun a b : JobRow => a.timestamp < b.timestamp)
      (JobQueue.get_all_jobs pythonfile none true now tbl) :=
    (hsorted.and hne).imp (fun hab => lt_of_le_of_ne hab.1 hab.2)
  have hhead := get_job_eq_head pythonfile now tbl hpf
  refine ⟨hlt, hperm, hhead, ?_, ?_⟩
  · intro j hj
    have hj' := get_job_some_mem hj
    refine ⟨hj'.1, hj'.2.2.1, ?_⟩
    intro k hk hkpf hkE
    have hkG : k ∈ JobQueue.get_all_jobs pythonfile none true now tbl :=
      (@mem_get_all_jobs_typed pythonfile now tbl k hpf).mpr ⟨hk, hkpf, hkE⟩
    rw [hhead] at hj
    cases hGl : JobQueue.get_all_jobs pythonfile none true now tbl with
    | nil => rw [hGl] at hj; simp at hj
    | cons a rest =>
        rw [hGl] at hj hkG hsorted
        simp only [List.head?_cons, Option.some.injEq] at hj
        subst hj
        rcases List.mem_cons.mp hkG with hkj | hkrest
        · rw [hkj]
        · exact (List.pairwise_cons.mp hsorted).1 k hkrest
  · rw [hhead, List.head?_eq_none_iff]
    constructor
    · intro hnil k hk hkprop
      have hkG : k ∈ JobQueue.get_all_jobs pythonfile none true now tbl :=
        (@mem_get_all_jobs_typed pythonfile now tbl k hpf).mpr
          ⟨hk, hkprop.1, hkprop.2⟩
      rw [hnil] at hkG
      simp at hkG
    · intro hall
      have hF : tbl.filter (fun j => (j.pythonfile == pythonfile) &&
          claimableSql now j) = [] := by
        rw [List.filter_eq_nil_iff]
        intro a ha hpa
        simp only [Bool.and_eq_true, beq_iff_eq] at hpa
        exact hall a ha ⟨hpa.1, (claimableSql_iff now a).mp hpa.2⟩
      exact List.length_eq_zero.mp (by rw [hperm.length_eq, hF]; rfl)

/-- C8 witness: for the two eligible rows of type `"w"` listed out of order,
`get_all_jobs` returns them in strictly ascending timestamp order. -/
theorem C8_fifo_and_min_witness :
    List.Pairwise (fun a b : JobRow => a.timestamp < b.timestamp)
      (JobQueue.get_all_jobs "w" none true 10 [rowEligB, rowEligA]) :=
  (C8_fifo_and_min "w" 10 [rowEligB, rowEligA] (by decide) (by decide)).1

/-- C6 counterexample: for a table already holding the stored row for
`("w", "x")` — id 7, timestamp 100, 3 attempts — calling `add_job("w", ...,
remote_id="x")` at `now = 200` leaves the table untouched but returns a
handle whose data is the argument dict just built: timestamp 200 and 0
attempts, not the existing row's timestamp 100, attempts 3 (nor its id: the
dict has no id at all). The returned handle does not reflect the existing
row's data. -/
theorem C6_counterexample_stale_handle :
    (JobQueue.add_job "w" "null" (some "x") 0 0 200 "u" 8 [rowStored]).1 =
      [rowStored] ∧
    (JobQueue.add_job "w" "null" (some "x") 0 0 200 "u" 8
      [rowStored]).2.timestamp = 200 ∧
    rowStored.timestamp = 100 ∧
    (JobQueue.add_job "w" "null" (some "x") 0 0 200 "u" 8
      [rowStored]).2.attempts = 0 ∧
    rowStored.attempts = 3 := by
  refine ⟨?_, rfl, rfl, rfl, rfl⟩
  decide

/-- C6 as amended: `add_job` always returns a Job handle built from the
argument dict it just assembled — `timestamp = now`, `attempts = 0`,
`timestamp_after = claim_after`, and the caller's type, details, remote id and
interval, with no row id — and when the insert is suppressed by a conflict
with an existing row the table is left unchanged, so the handle reflects the
argument values the caller supplied and not the existing row's id or
timestamps. -/
theorem C6_amended_handle_from_args (pythonfile d rid : String)
    (ca iv now : Int) (u : String) (fid : Nat) (tbl : List JobRow)
    (hrid : rid ≠ "") :
    (JobQueue.add_job pythonfile d (some rid) ca iv now u fid tbl).2 =
      { pythonfile := pythonfile, details := d, timestamp := now,
        timestamp_claimed := 0, timestamp_lastclaimed := 0, remote_id := rid,
        timestamp_after := ca, interval := iv, attempts := 0 } ∧
    (hasPair pythonfile rid tbl = true →
      (JobQueue.add_job pythonfile d (some rid) ca iv now u fid tbl).1 =
        tbl) := by
  constructor
  · unfold JobQueue.add_job Job.get_by_data effectiveRemoteId
    simp [hrid]
  · intro ht
    unfold JobQueue.add_job Database.insert_safe_jobs Job.get_by_data
      effectiveRemoteId
    simp [hrid, ht]

/-- C6 amended witness: a concrete conflicting `add_job` call returns the
argument-built handle and leaves the table unchanged. -/
theorem C6_amended_handle_from_args_witness :
    (JobQueue.add_job "w" "null" (some "x") 0 0 300 "u" 9 [rowStored]).1 =
      [rowStored] :=
  (C6_amended_handle_from_args "w" "null" "x" 0 0 300 "u" 9 [rowStored]
    (by decide)).2 (by decide)

/-- C7 (code bug): `get_place_in_queue` evaluated at the failing inputs. For
a table holding only the unclaimed eligible `rowFront` the function returns
0, although the docstring (and the claim) reserve 0 for jobs being processed
and say 1 means the front of the queue; and adding the currently claimed
`rowClaimed` — same type, earlier timestamp, so per the claim it stands ahead
of `rowFront` — changes nothing, because `get_all_jobs` is called with
`restrict_claimable` defaulting to true and never returns claimed rows, so
the `timestamp_claimed > 0` disjunct of the filter is dead code. -/
theorem C7_place_in_queue_eval :
    JobQueue.get_place_in_queue rowFront 100 [rowFront] = 0 ∧
    JobQueue.get_place_in_queue rowFront 100 [rowClaimed, rowFront] = 0 ∧
    rowFront.timestamp_claimed = 0 ∧ rowClaimed.timestamp_claimed > 0 ∧
    rowClaimed.timestamp < rowFront.timestamp ∧
    rowClaimed.pythonfile = rowFront.pythonfile := by
  refine ⟨?_, ?_, rfl, by decide, by decide, rfl⟩ <;>
    simp [JobQueue.get_place_in_queue, JobQueue.get_all_jobs, orderByTimestamp,
      claimableSql, rowFront, rowClaimed, List.mergeSort]

/-- C10 counterexample: the claim says `has_jobs()` returns true iff at least
one currently eligible job exists. `rowEmptyType` is eligible at `now = 10`,
but its `pythonfile` is the empty string and the wildcard query of
`get_all_jobs` filters on `pythonfile != ''`, so `has_jobs` returns false on
a table that does contain an eligible job. -/
theorem C10_counterexample_empty_type :
    Scheduler.has_jobs 10 [rowEmptyType] = false ∧ Eligible 10 rowEmptyType ∧
    ([rowEmptyType] : List JobRow) ≠ [] := by
  refine ⟨?_, by decide, by decide⟩
  simp [Scheduler.has_jobs, JobQueue.get_all_jobs, orderByTimestamp,
    rowEmptyType, List.mergeSort]

/-- C10 as amended: `has_jobs()` returns true iff at least one currently
eligible job with a non-empty `pythonfile` exists (it calls `get_all_jobs`
with the wildcard type, which filters `pythonfile != ''`, and with
`restrict_claimable` defaulting to true); in particular it returns false
while every remaining row is claimed or deferred, even though the jobs table
is non-empty. -/
theorem C10_amended_has_jobs (now : Int) (tbl : List JobRow) :
    (Scheduler.has_jobs now tbl = true ↔
       ∃ j ∈ tbl, j.pythonfile ≠ "" ∧ Eligible now j) ∧
    ((∀ j ∈ tbl, ¬ Eligible now j) → Scheduler.has_jobs now tbl = false) := by
  have hiff : Scheduler.has_jobs now tbl = true ↔
      ∃ j ∈ tbl, j.pythonfile ≠ "" ∧ Eligible now j := by
    rw [Scheduler.has_jobs, decide_eq_true_eq, List.length_pos]
    constructor
    · intro hne
      rcases List.exists_mem_of_ne_nil _ hne with ⟨j, hj⟩
      exact ⟨j, mem_get_all_jobs_wild.mp hj⟩
    · rintro ⟨j, hj⟩
      intro hnil
      have := mem_get_all_jobs_wild.mpr hj
      rw [hnil] at this
      simp at this
  refine ⟨hiff, fun hall => ?_⟩
  cases hb : Scheduler.has_jobs now tbl
  · rfl
  · rcases hiff.mp hb with ⟨j, hj, -, hE⟩
    exact absurd hE (hall j hj)

/-- C10 amended witness: on a table whose only row is currently claimed,
`has_jobs` returns false. -/
theorem C10_amended_has_jobs_witness :
    Scheduler.has_jobs 10 [rowClaimed] = false :=
  (C10_amended_has_jobs 10 [rowClaimed]).2 (by decide)
